/-
Verification of the color-improv timing/audio core against its specification.

Shallow embedding notes:
* JavaScript numbers are modelled as exact rationals (ℚ); all quantities the
  claims touch are clock readings, durations and gains, on which the code only
  performs +, -, *, /, floor, ceil and comparisons.
* The spec and the doc comments of `progression-data.js` fix elapsed-beat
  inputs to non-negative integers, so the pure progression queries are
  modelled over ℕ.  For a non-negative integer `e`,
  `Math.floor((e / 4) % 12)` equals `(e / 4) % 12` in ℕ arithmetic and
  `Math.floor(e / 48)` equals `e / 48` in ℕ arithmetic, which is how those
  formulas are rendered below.
* JavaScript `%` is a truncating remainder; every `%` in the embedded code is
  applied to non-negative operands, where it agrees with ℕ `%` and with
  `Int.emod`.
* The `while` loop of `getChordInfo` is rendered as a fuel-indexed scan
  (`scanNext`); `scanNext prog c i fuel = some j` holds exactly when the
  JavaScript loop started at index `i` exits within `fuel` iterations at
  index `j`, and `= none` when `fuel` iterations do not make it exit.
  Termination and fuel-independence on the real data are proved below.
* Stateful classes (`TimingEngine`, `AudioEngine`, `SampleLoader`) become
  state records with explicit state-passing operations; clock reads of
  `audioEngine.getCurrentTime()` / `audioContext.currentTime` become an
  explicit `now : ℚ` argument; `throw` becomes `Except.error` with the
  source's message.
-/
import Mathlib

/-! ## Progression model (`src/timing/progression-data.js`) -/

/-- 12-bar blues progression data - each element is a measure. -/
def TWELVE_BAR_BLUES : List String :=
  ["C7", "C7", "C7", "C7", "F7", "F7", "C7", "C7", "G7", "F7", "C7", "G7"]

def TOTAL_MEASURES : Nat := TWELVE_BAR_BLUES.length

def BEATS_PER_MEASURE : Nat := 4

def TOTAL_BEATS : Nat := TOTAL_MEASURES * BEATS_PER_MEASURE

def DEFAULT_BPM : ℚ := 120

/-- `getBeatDuration(bpm) = 60 / bpm` (seconds). -/
def getBeatDuration (bpm : ℚ) : ℚ := 60 / bpm

/-- `(elapsedBeats % BEATS_PER_MEASURE) + 1`, 1-indexed beat in the measure. -/
def getBeatNumberInMeasure (elapsedBeats : Nat) : Nat :=
  elapsedBeats % BEATS_PER_MEASURE + 1

/-- `Math.floor((elapsedBeats / BEATS_PER_MEASURE) % TOTAL_MEASURES)`,
0-indexed measure; for integer `elapsedBeats ≥ 0` this is
`(elapsedBeats / 4) % 12` in ℕ arithmetic. -/
def getMeasureIndex (elapsedBeats : Nat) : Nat :=
  elapsedBeats / BEATS_PER_MEASURE % TOTAL_MEASURES

/-- `getMeasureIndex + 1`, 1-indexed. -/
def getMeasureNumberInProgression (elapsedBeats : Nat) : Nat :=
  getMeasureIndex elapsedBeats + 1

/-- The `while (TWELVE_BAR_BLUES[i] === currentChord) i = (i + 1) % TOTAL_MEASURES`
loop of `getChordInfo`, indexed by the number of loop iterations still
allowed (`fuel`).  `prog.getD i ""` renders `prog[i]`: an out-of-range read
gives `undefined`, which is `!==` any chord string, exactly as `""` is `≠`
any chord label stored in the data. -/
def scanNext (prog : List String) (c : String) : Nat → Nat → Option Nat
  | _, 0 => none
  | i, fuel + 1 =>
    if prog.getD i "" = c then scanNext prog c ((i + 1) % TOTAL_MEASURES) fuel
    else some i

structure ChordInfo where
  currentChord : String
  nextChord : String
  beatsUntilNextChord : Int
deriving DecidableEq, Repr

/-- `getChordInfo(elapsedBeats)`.  The unbounded source loop is run with fuel
`TOTAL_MEASURES`; theorem `getChordInfo_scan_terminates_on_blues` below shows
that on the repository's data the loop always exits within that many
iterations and that any larger fuel gives the same exit index, so the fuel
choice is invisible.  The `.getD currMeasureIdx` default is never taken on
the real data (the scan returns `some`).  All `%` operands in
`beatsUntilNextChord` make the dividend positive, where the JavaScript
truncating `%` agrees with `Int.emod`. -/
def getChordInfo (elapsedBeats : Nat) : ChordInfo :=
  let currMeasureIdx := getMeasureIndex elapsedBeats
  let currentChord := TWELVE_BAR_BLUES.getD currMeasureIdx ""
  let i := (scanNext TWELVE_BAR_BLUES currentChord currMeasureIdx TOTAL_MEASURES).getD currMeasureIdx
  { currentChord := currentChord
    nextChord := TWELVE_BAR_BLUES.getD i ""
    beatsUntilNextChord :=
      ((i : Int) * (BEATS_PER_MEASURE : Int) - (elapsedBeats % TOTAL_BEATS : Nat)
        + (TOTAL_BEATS : Int)) % (TOTAL_BEATS : Int) }

/-- `Math.floor(elapsedBeats / TOTAL_BEATS)` for integer input. -/
def getLoopsCompleted (elapsedBeats : Nat) : Nat :=
  elapsedBeats / TOTAL_BEATS

/-! ## Audio configuration (`src/constants.js`) -/

structure BackingTrackConfig where
  filename : String
  bpm : ℚ
  silenceOffset : ℚ
  countInBeats : ℚ
  maxLoops : Nat
deriving DecidableEq, Repr

/-- `AUDIO_CONFIG.backingTracks.blues`. -/
def bluesTrackConfig : BackingTrackConfig :=
  { filename := "blues.mp3"
    bpm := 120
    silenceOffset := 281 / 1000
    countInBeats := 4
    maxLoops := 11 }

/-- `AUDIO_CONFIG.volumes.NOTE_FADE_TIME_DEFAULT` (seconds). -/
def NOTE_FADE_TIME_DEFAULT : ℚ := 35 / 100

def SAMPLES_MASTER_GAIN_DEFAULT : ℚ := 8 / 10

def BACKING_TRACK_GAIN_DEFAULT : ℚ := 6 / 10

/-! ## Timing engine (`src/timing/TimingEngine.js`) -/

def VISUAL_LEAD_TIME : ℚ := 1 / 10

/-- Mutable fields of a `TimingEngine` constructed with `trackKey = 'blues'`. -/
structure TimingState where
  startTime : Option ℚ
  isPlaying : Bool
  pausedAt : Option ℚ
deriving DecidableEq, Repr

namespace TimingEngine

/-- Constructor state: `startTime = null`, `isPlaying = false`, `pausedAt = null`. -/
def initialState : TimingState := ⟨none, false, none⟩

def bpm : ℚ := bluesTrackConfig.bpm

def beatDuration : ℚ := getBeatDuration bpm

def silenceOffset : ℚ := bluesTrackConfig.silenceOffset

def countInBeats : ℚ := bluesTrackConfig.countInBeats

def maxLoops : Nat := bluesTrackConfig.maxLoops

/-- `start()`: throws when `audioEngine.isReady()` is false, otherwise captures
the clock and enters playing.  `pausedAt` is left untouched by the source. -/
def start (ready : Bool) (now : ℚ) (s : TimingState) : Except String TimingState :=
  if ready = false then
    .error "AudioEngine is not ready. Cannot start TimingEngine."
  else
    .ok { s with startTime := some now, isPlaying := true }

/-- `pause()`: no-op unless playing; records the clock and leaves playing. -/
def pause (now : ℚ) (s : TimingState) : TimingState :=
  if s.isPlaying = false then s
  else { s with pausedAt := some now, isPlaying := false }

/-- `stop()`: unconditional reset. -/
def stop (_s : TimingState) : TimingState :=
  { startTime := none, isPlaying := false, pausedAt := none }

/-- `resume()`.  The source guard is `if (!this.startTime)`: a JavaScript
truthiness test, which fires both on `null` and on the number `0`, so a
transport started at clock reading exactly 0 is also rejected as
"not started".  The `pausedAt` guard is a strict `=== null` comparison. -/
def resume (now : ℚ) (s : TimingState) : Except String TimingState :=
  match s.startTime with
  | none => .error "TimingEngine has not been started yet. Cannot resume."
  | some st =>
    if st = 0 then .error "TimingEngine has not been started yet. Cannot resume."
    else
      match s.pausedAt with
      | none => .error "TimingEngine is not paused. Cannot resume."
      | some pa =>
        .ok { s with startTime := some (st + (now - pa)), pausedAt := none, isPlaying := true }

end TimingEngine

/-- JavaScript truncation toward zero, for the `x % 1` beat-progress values. -/
def ratTrunc (q : ℚ) : ℤ :=
  if 0 ≤ q then ⌊q⌋ else ⌈q⌉

/-- JavaScript `x % 1` on numbers: `x - trunc(x)`. -/
def jsModOne (q : ℚ) : ℚ := q - ratTrunc q

/-- Result shape of `TimingEngine.getCurrentPosition()`. -/
structure Position where
  phase : String
  beatNumberInMeasure : Option Nat
  measureNumberInProgression : Option Nat
  currentChord : Option String
  nextChord : String
  beatsUntilNextChord : Option Int
  loopsCompleted : Nat
  beatProgress : Option ℚ
deriving DecidableEq, Repr

/-- The object built by the `if (!this.isPlaying || this.startTime === null)`
branch of `getCurrentPosition`. -/
def waitingPosition : Position :=
  { phase := "waiting"
    beatNumberInMeasure := none
    measureNumberInProgression := none
    currentChord := none
    nextChord := "C7"
    beatsUntilNextChord := none
    loopsCompleted := 0
    beatProgress := none }

namespace TimingEngine

/-- `getCurrentPosition()`.  The source's local `inSilence` boolean is the
condition `elapsedTotalTime < silenceOffset`, written inline at each of its
three uses.  In the playing branch `elapsedTimeFromProgressionStart ≥ 0`, so
`Math.floor(… / beatDuration)` is a non-negative integer, rendered with
`Int.toNat`. -/
def getCurrentPosition (s : TimingState) (now : ℚ) : Position :=
  match s.isPlaying, s.startTime with
  | true, some startTime =>
    let elapsedTotalTime := now - startTime + VISUAL_LEAD_TIME
    let elapsedTimeSinceSilence := elapsedTotalTime - silenceOffset
    let elapsedTimeFromProgressionStart :=
      elapsedTotalTime - (silenceOffset + countInBeats * beatDuration)
    if elapsedTimeFromProgressionStart < 0 then
      { phase := if elapsedTotalTime < silenceOffset then "waiting" else "count-in"
        beatNumberInMeasure := none
        measureNumberInProgression := none
        currentChord := none
        nextChord := "C7"
        beatsUntilNextChord :=
          if elapsedTotalTime < silenceOffset then none
          else some ⌈-elapsedTimeFromProgressionStart / beatDuration⌉
        loopsCompleted := 0
        beatProgress :=
          if elapsedTotalTime < silenceOffset then none
          else some (jsModOne (elapsedTimeSinceSilence / beatDuration)) }
    else
      let elapsedBeats := (⌊elapsedTimeFromProgressionStart / beatDuration⌋).toNat
      let info := getChordInfo elapsedBeats
      { phase := "playing"
        beatNumberInMeasure := some (getBeatNumberInMeasure elapsedBeats)
        measureNumberInProgression := some (getMeasureNumberInProgression elapsedBeats)
        currentChord :=
          some (if getLoopsCompleted elapsedBeats ≤ maxLoops then info.currentChord else "C7")
        nextChord := info.nextChord
        beatsUntilNextChord := some info.beatsUntilNextChord
        loopsCompleted := getLoopsCompleted elapsedBeats
        beatProgress := some (jsModOne (elapsedTimeFromProgressionStart / beatDuration)) }
  | _, _ => waitingPosition

end TimingEngine

/-! ## JavaScript `Map` model

`Map.get` returns the value of the unique entry with the key, `Map.set`
replaces that entry in place (or appends a fresh one at the end, keeping
insertion order), `Map.delete` removes it.  A `Map` is modelled as an
insertion-ordered association list; the key-uniqueness that a real `Map`
provides by construction is `KeysNodup` below, and the theorems show the
engine operations preserve it. -/

def mapGet {α β : Type} [DecidableEq α] : List (α × β) → α → Option β
  | [], _ => none
  | (k', v') :: rest, k => if k' = k then some v' else mapGet rest k

def mapSet {α β : Type} [DecidableEq α] : List (α × β) → α → β → List (α × β)
  | [], k, v => [(k, v)]
  | (k', v') :: rest, k, v =>
    if k' = k then (k, v) :: rest else (k', v') :: mapSet rest k v

def mapDelete {α β : Type} [DecidableEq α] : List (α × β) → α → List (α × β)
  | [], _ => []
  | (k', v') :: rest, k => if k' = k then rest else (k', v') :: mapDelete rest k

/-- Every key owns at most one entry — automatic for a real JavaScript `Map`. -/
def KeysNodup {α β : Type} (l : List (α × β)) : Prop :=
  (l.map Prod.fst).Nodup

/-! ## Sample loader (`src/audio/SampleLoader.js`) -/

/-- State of a `SampleLoader`: the URL-keyed cache of decoded buffers, a
supply of fresh buffer identities (distinct decodes produce distinct
`AudioBuffer` objects, so reference identity is buffer-identity equality),
and the log of fetches issued. -/
structure LoaderState where
  cache : List (String × Nat)
  nextBuffer : Nat
  fetchLog : List String
deriving DecidableEq, Repr

namespace SampleLoader

def emptyState : LoaderState := ⟨[], 0, []⟩

/-- `loadSample(url)`: cache check first; on a miss, one fetch of the raw
bytes followed by a decode, then the decoded buffer is stored under `url`
and returned.  `fetchOk` says whether the fetch-and-decode of a URL
succeeds; a failure is re-thrown (`Except.error`) after the fetch was
already issued. -/
def loadSample (fetchOk : String → Bool) (url : String) (s : LoaderState) :
    LoaderState × Except String Nat :=
  match mapGet s.cache url with
  | some buffer => (s, .ok buffer)
  | none =>
    let s1 : LoaderState := { s with fetchLog := s.fetchLog ++ [url] }
    if fetchOk url then
      let audioBuffer := s1.nextBuffer
      ({ s1 with cache := mapSet s1.cache url audioBuffer, nextBuffer := audioBuffer + 1 },
        .ok audioBuffer)
    else
      (s1, .error ("Failed to load " ++ url))

end SampleLoader

/-! ## Audio engine (`src/audio/AudioEngine.js`) -/

/-- A value of `activeSources`: `{ midiNumber, sourceNode, gainNode }`, with
the Web Audio nodes represented by identities (fresh per `createBufferSource`
/ `createGain`). -/
structure ActiveVoice where
  midiNumber : Nat
  sourceNode : Nat
  gainNode : Nat
deriving DecidableEq, Repr

/-- The fade-out `stopNote` schedules: a `setValueAtTime` +
`exponentialRampToValueAtTime(0.001, now + fade)` on the voice's gain node
and a `sourceNode.stop(now + fade)`. -/
structure StopEvent where
  gainNode : Nat
  sourceNode : Nat
  rampEndTime : ℚ
  rampTarget : ℚ
  stopTime : ℚ
deriving DecidableEq, Repr

/-- The scheduling a single `stopNote` performs on a voice at clock `now`. -/
def fadeStopEvent (now : ℚ) (v : ActiveVoice) : StopEvent :=
  { gainNode := v.gainNode
    sourceNode := v.sourceNode
    rampEndTime := now + NOTE_FADE_TIME_DEFAULT
    rampTarget := 1 / 1000
    stopTime := now + NOTE_FADE_TIME_DEFAULT }

/-- The `AudioEngine` state the claims touch: whether the `AudioContext` is
running, which MIDI numbers have decoded sample buffers, the
`activeSources` voice registry, a supply of fresh node identities, the two
gain buses, and the log of scheduled fade-outs.  (Backing-track fields and
loading promises are orthogonal to the claims and are not modelled.) -/
structure AudioState where
  contextRunning : Bool
  samples : List Nat
  activeSources : List (String × ActiveVoice)
  nextNodeId : Nat
  samplesMasterGain : ℚ
  backingTrackGain : ℚ
  fades : List StopEvent
deriving DecidableEq, Repr

namespace AudioEngine

/-- `stopNote(inputID, midiNumber)` at clock reading `now`
(`audioContext.currentTime`).  An unregistered `inputID` only warns.  A
MIDI-number mismatch with the registered voice also only warns — the stop
still proceeds on `inputID`.  Otherwise: fade the voice's gain to 0.001
over `NOTE_FADE_TIME_DEFAULT`, schedule the source stop at the fade end,
and delete the registry entry. -/
def stopNote (now : ℚ) (inputID : String) (_midiNumber : Nat) (s : AudioState) : AudioState :=
  match mapGet s.activeSources inputID with
  | none => s
  | some active =>
    { s with
        activeSources := mapDelete s.activeSources inputID
        fades := s.fades ++ [fadeStopEvent now active] }

/-- `playNote(inputID, midiNumber)` at clock reading `now`.  Returns `none`
(JS `null`) when the context is not running or no buffer exists for the
MIDI number.  If a voice is already registered under `inputID` it is first
force-stopped via `stopNote`.  A fresh source node and gain node are
created, playback starts, and the voice is registered. -/
def playNote (now : ℚ) (inputID : String) (midiNumber : Nat) (s : AudioState) :
    AudioState × Option ActiveVoice :=
  if s.contextRunning = false then (s, none)
  else if midiNumber ∉ s.samples then (s, none)
  else
    let s1 := if (mapGet s.activeSources inputID).isSome then stopNote now inputID midiNumber s else s
    let voice : ActiveVoice :=
      { midiNumber := midiNumber, sourceNode := s1.nextNodeId, gainNode := s1.nextNodeId + 1 }
    ({ s1 with
        activeSources := mapSet s1.activeSources inputID voice
        nextNodeId := s1.nextNodeId + 2 },
      some voice)

/-- The loop body of `stopAllSamples`: iterate over the entries snapshot in
insertion order, stopping each.  The live `Map` iterator visits entries in
insertion order and `stopNote` only deletes the entry being visited, so
iterating the entry snapshot is equivalent. -/
def stopAllGo (now : ℚ) : List (String × ActiveVoice) → AudioState → AudioState
  | [], s => s
  | (inputID, v) :: rest, s => stopAllGo now rest (stopNote now inputID v.midiNumber s)

/-- `stopAllSamples()`: `for (const [inputID, { midiNumber }] of
this.activeSources.entries()) this.stopNote(inputID, midiNumber)`. -/
def stopAllSamples (now : ℚ) (s : AudioState) : AudioState :=
  stopAllGo now s.activeSources s

end AudioEngine

/-- A degenerate progression in which every one of the `TOTAL_MEASURES`
measures carries the same chord label — the shape the spec's guard
requirement is about.  (Not the repository's data, which is non-constant.) -/
def CONSTANT_PROGRESSION : List String :=
  ["C7", "C7", "C7", "C7", "C7", "C7", "C7", "C7", "C7", "C7", "C7", "C7"]

/-! ## The chord scan: termination (claims C3, C4) -/

/-- The scan's exit index is stable once it has enough fuel to exit: any
larger fuel returns the same result, so the fuel-indexed `scanNext` with a
sufficient fuel is exactly the source's unbounded `while` loop. -/
theorem scanNext_fuel_stable (prog : List String) (c : String) :
    ∀ n m i : Nat, n ≤ m → (scanNext prog c i n).isSome = true →
      scanNext prog c i m = scanNext prog c i n := by
  intro n
  induction n with
  | zero => intro m i _ h; simp [scanNext] at h
  | succ k ih =>
    intro m i hnm h
    cases m with
    | zero => exact absurd hnm (Nat.not_succ_le_zero k)
    | succ m' =>
      simp only [scanNext] at h ⊢
      by_cases hc : prog.getD i "" = c
      · simp only [if_pos hc] at h ⊢
        exact ih m' _ (Nat.le_of_succ_le_succ hnm) h
      · simp only [if_neg hc]

/-- Claim C3 (amended): on the repository's fixed `TWELVE_BAR_BLUES` data
(which is non-constant) the forward measure-by-measure scan of
`getChordInfo` terminates for every non-negative integer elapsed-beats
input — it exits within at most `TOTAL_MEASURES` iterations, and allowing
more iterations changes nothing, so `getChordInfo` is a total function over
its actual progression data.  (The code has no guard for a degenerate
all-identical progression; see the counterexample.) -/
theorem getChordInfo_scan_terminates_on_blues (b : Nat) :
    (scanNext TWELVE_BAR_BLUES (TWELVE_BAR_BLUES.getD (getMeasureIndex b) "")
        (getMeasureIndex b) TOTAL_MEASURES).isSome = true ∧
    ∀ fuel, TOTAL_MEASURES ≤ fuel →
      scanNext TWELVE_BAR_BLUES (TWELVE_BAR_BLUES.getD (getMeasureIndex b) "")
          (getMeasureIndex b) fuel
        = scanNext TWELVE_BAR_BLUES (TWELVE_BAR_BLUES.getD (getMeasureIndex b) "")
            (getMeasureIndex b) TOTAL_MEASURES := by
  have hm : getMeasureIndex b < TOTAL_MEASURES := Nat.mod_lt _ (by decide)
  have hsome : ∀ m, m < TOTAL_MEASURES →
      (scanNext TWELVE_BAR_BLUES (TWELVE_BAR_BLUES.getD m "") m TOTAL_MEASURES).isSome
        = true := by
    decide
  exact ⟨hsome _ hm, fun fuel hf =>
    scanNext_fuel_stable _ _ TOTAL_MEASURES fuel _ hf (hsome _ hm)⟩

/-- Claim C3's witness: the scan from elapsed-beats 5 with fuel 20 equals
the scan with fuel `TOTAL_MEASURES`. -/
theorem getChordInfo_scan_terminates_on_blues_witness :
    TOTAL_MEASURES ≤ 20 ∧
    scanNext TWELVE_BAR_BLUES (TWELVE_BAR_BLUES.getD (getMeasureIndex 5) "")
        (getMeasureIndex 5) 20
      = scanNext TWELVE_BAR_BLUES (TWELVE_BAR_BLUES.getD (getMeasureIndex 5) "")
          (getMeasureIndex 5) TOTAL_MEASURES :=
  ⟨by decide, (getChordInfo_scan_terminates_on_blues 5).2 20 (by decide)⟩

/-- On an all-identical progression the scan never exits: no fuel suffices. -/
theorem scanNext_constant_eq_none : ∀ fuel i, i < TOTAL_MEASURES →
    scanNext CONSTANT_PROGRESSION "C7" i fuel = none := by
  intro fuel
  induction fuel with
  | zero => intro i _; rfl
  | succ k ih =>
    intro i hi
    have hg : CONSTANT_PROGRESSION.getD i "" = "C7" :=
      (show ∀ j, j < TOTAL_MEASURES → CONSTANT_PROGRESSION.getD j "" = "C7" by decide) i hi
    simp only [scanNext, hg, if_pos]
    exact ih _ (Nat.mod_lt _ (by decide))

/-- Claim C3's counterexample: the claim as stated — the scan terminates
even "when every measure of the progression carries an identical chord
label, where it must be guarded rather than hang" — is false of the code:
there is no guard, and starting the scan at elapsed-beats 0 over a
progression whose twelve measures all read C7, no number of loop
iterations ever makes it exit. -/
theorem scan_diverges_on_constant_progression :
    ¬ ∃ fuel, (scanNext CONSTANT_PROGRESSION
        (CONSTANT_PROGRESSION.getD (getMeasureIndex 0) "") (getMeasureIndex 0)
          fuel).isSome = true := by
  rintro ⟨fuel, hf⟩
  have h0 : CONSTANT_PROGRESSION.getD (getMeasureIndex 0) "" = "C7" := by decide
  rw [h0] at hf
  rw [scanNext_constant_eq_none fuel (getMeasureIndex 0) (by decide)] at hf
  simp at hf

/-- `getChordInfo` only depends on the elapsed-beats modulo `TOTAL_BEATS`. -/
theorem getChordInfo_mod (b : Nat) : getChordInfo (b % TOTAL_BEATS) = getChordInfo b := by
  have h1 : getMeasureIndex (b % TOTAL_BEATS) = getMeasureIndex b := by
    show b % 48 / 4 % 12 = b / 4 % 12
    omega
  have h2 : b % TOTAL_BEATS % TOTAL_BEATS = b % TOTAL_BEATS := Nat.mod_mod_of_dvd b dvd_rfl
  simp only [getChordInfo]
  rw [h1, h2]

set_option maxHeartbeats 1000000 in
/-- Claim C4: for every non-negative integer `b`,
`getChordInfo(b).beatsUntilNextChord` lies in `[0, TOTAL_BEATS)` (i.e.
`[0, 48)`), and — the progression being non-constant — the chord
`beatsUntilNextChord` beats later differs from the current one. -/
theorem beatsUntilNextChord_bounds_and_chord_change (b : Nat) :
    0 ≤ (getChordInfo b).beatsUntilNextChord ∧
    (getChordInfo b).beatsUntilNextChord < (TOTAL_BEATS : Int) ∧
    (getChordInfo (b + (getChordInfo b).beatsUntilNextChord.toNat)).currentChord
      ≠ (getChordInfo b).currentChord := by
  have key : ∀ r, r < TOTAL_BEATS →
      0 ≤ (getChordInfo r).beatsUntilNextChord ∧
      (getChordInfo r).beatsUntilNextChord < (TOTAL_BEATS : Int) ∧
      (getChordInfo ((r + (getChordInfo r).beatsUntilNextChord.toNat)
          % TOTAL_BEATS)).currentChord
        ≠ (getChordInfo r).currentChord := by decide
  have hb : b % TOTAL_BEATS < TOTAL_BEATS := Nat.mod_lt _ (by decide)
  obtain ⟨h1, h2, h3⟩ := key (b % TOTAL_BEATS) hb
  rw [getChordInfo_mod b] at h1 h2 h3
  rw [Nat.mod_add_mod, getChordInfo_mod] at h3
  exact ⟨h1, h2, h3⟩

/-! ## Transport engine: position queries, pause/resume (claims C1, C2, C6, C7) -/

/-- Whenever `isPlaying` is false — idle or paused alike — `getCurrentPosition`
takes the `!this.isPlaying || this.startTime === null` early return. -/
theorem getCurrentPosition_not_playing (s : TimingState) (now : ℚ)
    (h : s.isPlaying = false) :
    TimingEngine.getCurrentPosition s now = waitingPosition := by
  obtain ⟨st, ip, pa⟩ := s
  cases ip with
  | false => cases st <;> rfl
  | true => exact Bool.noConfusion h

/-- Evaluation of the playing branch of `getCurrentPosition`: when the clock
has passed silence plus count-in, the result is built from the integer
elapsed-beats `e`. -/
theorem getCurrentPosition_playing_eq (st now : ℚ) (pa : Option ℚ) (e : ℕ)
    (h0 : ¬ (now - st + VISUAL_LEAD_TIME
      - (TimingEngine.silenceOffset + TimingEngine.countInBeats * TimingEngine.beatDuration) < 0))
    (he : (⌊(now - st + VISUAL_LEAD_TIME
      - (TimingEngine.silenceOffset + TimingEngine.countInBeats * TimingEngine.beatDuration))
        / TimingEngine.beatDuration⌋).toNat = e) :
    TimingEngine.getCurrentPosition ⟨some st, true, pa⟩ now =
      { phase := "playing"
        beatNumberInMeasure := some (getBeatNumberInMeasure e)
        measureNumberInProgression := some (getMeasureNumberInProgression e)
        currentChord := some (if getLoopsCompleted e ≤ TimingEngine.maxLoops
          then (getChordInfo e).currentChord else "C7")
        nextChord := (getChordInfo e).nextChord
        beatsUntilNextChord := some (getChordInfo e).beatsUntilNextChord
        loopsCompleted := getLoopsCompleted e
        beatProgress := some (jsModOne ((now - st + VISUAL_LEAD_TIME
          - (TimingEngine.silenceOffset + TimingEngine.countInBeats * TimingEngine.beatDuration))
            / TimingEngine.beatDuration)) } := by
  simp only [TimingEngine.getCurrentPosition]
  rw [if_neg h0, he]

/-- A running transport's position depends on the clock reading and the
reference start instant only through their difference. -/
theorem getCurrentPosition_congr (st1 st2 now1 now2 : ℚ) (pa1 pa2 : Option ℚ)
    (h : now1 - st1 = now2 - st2) :
    TimingEngine.getCurrentPosition ⟨some st1, true, pa1⟩ now1
      = TimingEngine.getCurrentPosition ⟨some st2, true, pa2⟩ now2 := by
  simp only [TimingEngine.getCurrentPosition]
  rw [h]

/-- At clock reading 101 a transport started at 1 is past silence and count-in. -/
theorem blues_playing_cond_at_101 : ¬ ((101 : ℚ) - 1 + VISUAL_LEAD_TIME
    - (TimingEngine.silenceOffset + TimingEngine.countInBeats * TimingEngine.beatDuration) < 0) := by
  norm_num [VISUAL_LEAD_TIME, TimingEngine.silenceOffset, TimingEngine.countInBeats,
    TimingEngine.beatDuration, TimingEngine.bpm, bluesTrackConfig, getBeatDuration]

/-- 100 seconds into playback (plus visual lead) is elapsed beat 195. -/
theorem blues_elapsed_beats_at_101 : (⌊((101 : ℚ) - 1 + VISUAL_LEAD_TIME
    - (TimingEngine.silenceOffset + TimingEngine.countInBeats * TimingEngine.beatDuration))
      / TimingEngine.beatDuration⌋).toNat = 195 := by
  norm_num [VISUAL_LEAD_TIME, TimingEngine.silenceOffset, TimingEngine.countInBeats,
    TimingEngine.beatDuration, TimingEngine.bpm, bluesTrackConfig, getBeatDuration]
  decide

/-- Claim C2 (amended): for every transport state in which `isPlaying` is
false — which includes every paused state — `currentPosition()` returns the
idle waiting default with null chord data; the
`elapsedTotal = clockNow − referenceStart + visualLeadTime` computation is
reached only while running. -/
theorem currentPosition_paused_returns_waiting (s : TimingState) (now : ℚ)
    (h : s.isPlaying = false) :
    TimingEngine.getCurrentPosition s now = waitingPosition :=
  getCurrentPosition_not_playing s now h

/-- Claim C2's witness: a concrete paused state queried at clock 200. -/
theorem currentPosition_paused_returns_waiting_witness :
    TimingEngine.getCurrentPosition ⟨some 1, false, some 101⟩ 200 = waitingPosition :=
  currentPosition_paused_returns_waiting ⟨some 1, false, some 101⟩ 200 rfl

/-- Claim C2's counterexample: start at clock 1, pause at clock 101 (well
into the playing phase); the paused transport's position at clock 101 is the
'waiting' default with `currentChord = null`, not the elapsed-based playing
position the claim asserts (which a still-running transport at the same
clock does report). -/
theorem currentPosition_paused_counterexample :
    TimingEngine.start true 1 TimingEngine.initialState = .ok ⟨some 1, true, none⟩ ∧
    TimingEngine.pause 101 ⟨some 1, true, none⟩ = ⟨some 1, false, some 101⟩ ∧
    TimingEngine.getCurrentPosition ⟨some 1, false, some 101⟩ 101 = waitingPosition ∧
    waitingPosition.currentChord = none ∧
    (TimingEngine.getCurrentPosition ⟨some 1, true, none⟩ 101).phase = "playing" := by
  refine ⟨rfl, rfl, rfl, rfl, ?_⟩
  rw [getCurrentPosition_playing_eq 1 101 none 195 blues_playing_cond_at_101
    blues_elapsed_beats_at_101]

/-- Claim C7: `resume()` on a never-started transport fails with the
"not started" error, as claimed.  But `resume()` on a transport that is
started and running fails with the "not started" error — not the claimed
"not paused" error — when the reference start instant is exactly 0, because
the source guard `if (!this.startTime)` is a JavaScript truthiness test on
which the number 0 is falsy (the adjacent `pausedAt` guard uses `=== null`,
and `getCurrentPosition` uses `this.startTime === null`, so the truthiness
test is a slip). -/
theorem resume_error_on_zero_start :
    TimingEngine.resume 5 TimingEngine.initialState
      = .error "TimingEngine has not been started yet. Cannot resume." ∧
    TimingEngine.resume 5 ⟨some 0, true, none⟩
      = .error "TimingEngine has not been started yet. Cannot resume." ∧
    "TimingEngine has not been started yet. Cannot resume."
      ≠ "TimingEngine is not paused. Cannot resume." := by
  refine ⟨rfl, ?_, by decide⟩
  simp [TimingEngine.resume]

/-- Away from the zero start instant, `resume()` on a running (non-paused)
transport does fail with the "not paused" error. -/
theorem resume_running_nonzero_not_paused (now t : ℚ) (ht : t ≠ 0) :
    TimingEngine.resume now ⟨some t, true, none⟩
      = .error "TimingEngine is not paused. Cannot resume." := by
  simp only [TimingEngine.resume]
  rw [if_neg ht]

/-- At clock reading 10 a transport started at 0 is past silence and count-in. -/
theorem blues_playing_cond_at_10 : ¬ ((10 : ℚ) - 0 + VISUAL_LEAD_TIME
    - (TimingEngine.silenceOffset + TimingEngine.countInBeats * TimingEngine.beatDuration) < 0) := by
  norm_num [VISUAL_LEAD_TIME, TimingEngine.silenceOffset, TimingEngine.countInBeats,
    TimingEngine.beatDuration, TimingEngine.bpm, bluesTrackConfig, getBeatDuration]

/-- 10 seconds into playback (plus visual lead) is elapsed beat 15. -/
theorem blues_elapsed_beats_at_10 : (⌊((10 : ℚ) - 0 + VISUAL_LEAD_TIME
    - (TimingEngine.silenceOffset + TimingEngine.countInBeats * TimingEngine.beatDuration))
      / TimingEngine.beatDuration⌋).toNat = 15 := by
  norm_num [VISUAL_LEAD_TIME, TimingEngine.silenceOffset, TimingEngine.countInBeats,
    TimingEngine.beatDuration, TimingEngine.bpm, bluesTrackConfig, getBeatDuration]
  decide

/-- Claim C1: the pause/resume round-trip breaks at start clock reading 0.
Starting the transport at clock 0, advancing by 10 and pausing, then
advancing by 1 and resuming: `resume()` throws "not started" (the falsy-zero
`!this.startTime` guard), so the cycle cannot complete, and the position of
the stuck paused transport differs from the uninterrupted run's position. -/
theorem pause_resume_at_zero_start_fails :
    TimingEngine.start true 0 TimingEngine.initialState = .ok ⟨some 0, true, none⟩ ∧
    TimingEngine.pause 10 ⟨some 0, true, none⟩ = ⟨some 0, false, some 10⟩ ∧
    TimingEngine.resume 11 ⟨some 0, false, some 10⟩
      = .error "TimingEngine has not been started yet. Cannot resume." ∧
    TimingEngine.getCurrentPosition ⟨some 0, false, some 10⟩ 11
      ≠ TimingEngine.getCurrentPosition ⟨some 0, true, none⟩ 10 := by
  refine ⟨rfl, rfl, by simp [TimingEngine.resume], ?_⟩
  intro heq
  have hL : TimingEngine.getCurrentPosition ⟨some 0, false, some 10⟩ 11 = waitingPosition := rfl
  have hR : (TimingEngine.getCurrentPosition ⟨some 0, true, none⟩ 10).phase = "playing" := by
    rw [getCurrentPosition_playing_eq 0 10 none 15 blues_playing_cond_at_10
      blues_elapsed_beats_at_10]
  rw [← heq, hL] at hR
  exact absurd hR (by decide)

/-- For every nonzero start clock reading `t0` and all clock advances, the
pause/resume round-trip preserves `currentPosition()`: start at `t0`,
advance by `d1`, pause, advance by `d2`, resume, advance by `d3` reports
exactly what an uninterrupted run advanced by `d1 + d3` reports — `resume()`
shifts the reference start instant forward by exactly the paused duration. -/
theorem pause_resume_roundtrip_nonzero_start (t0 d1 d2 d3 : ℚ) (h0 : t0 ≠ 0) :
    ∃ s1 s3 : TimingState,
      TimingEngine.start true t0 TimingEngine.initialState = .ok s1 ∧
      TimingEngine.resume (t0 + d1 + d2) (TimingEngine.pause (t0 + d1) s1) = .ok s3 ∧
      TimingEngine.getCurrentPosition s3 (t0 + d1 + d2 + d3)
        = TimingEngine.getCurrentPosition s1 (t0 + d1 + d3) := by
  refine ⟨⟨some t0, true, none⟩, ⟨some (t0 + d2), true, none⟩, rfl, ?_, ?_⟩
  · show TimingEngine.resume (t0 + d1 + d2) ⟨some t0, false, some (t0 + d1)⟩ = _
    simp only [TimingEngine.resume]
    rw [if_neg h0]
    have harith : t0 + (t0 + d1 + d2 - (t0 + d1)) = t0 + d2 := by ring
    simp [harith]
  · exact getCurrentPosition_congr (t0 + d2) t0 (t0 + d1 + d2 + d3) (t0 + d1 + d3)
      none none (by ring)

/-- Claim C6 (amended): in the playing phase the reported `currentChord` is
forced to the progression's first chord C7 exactly once the loop count
exceeds `maxLoops` (`loopsCompleted > maxLoops`, i.e. strictly more than the
configured 11); for every loop count up to and including `maxLoops` it is
the Progression Model's chord for the current measure. -/
theorem maxLoops_chord_override (st now : ℚ) (pa : Option ℚ) (e : ℕ)
    (h0 : ¬ (now - st + VISUAL_LEAD_TIME
      - (TimingEngine.silenceOffset + TimingEngine.countInBeats * TimingEngine.beatDuration) < 0))
    (he : (⌊(now - st + VISUAL_LEAD_TIME
      - (TimingEngine.silenceOffset + TimingEngine.countInBeats * TimingEngine.beatDuration))
        / TimingEngine.beatDuration⌋).toNat = e) :
    (TimingEngine.maxLoops < getLoopsCompleted e →
      (TimingEngine.getCurrentPosition ⟨some st, true, pa⟩ now).currentChord = some "C7") ∧
    (getLoopsCompleted e ≤ TimingEngine.maxLoops →
      (TimingEngine.getCurrentPosition ⟨some st, true, pa⟩ now).currentChord
        = some ((getChordInfo e).currentChord)) := by
  rw [getCurrentPosition_playing_eq st now pa e h0 he]
  constructor
  · intro hl
    simp only [if_neg (Nat.not_le.mpr hl)]
  · intro hl
    simp only [if_pos hl]

/-- At clock reading 274.181 a transport started at 0 is past silence and count-in. -/
theorem blues_playing_cond_at_274181 : ¬ ((274181 / 1000 : ℚ) - 0 + VISUAL_LEAD_TIME
    - (TimingEngine.silenceOffset + TimingEngine.countInBeats * TimingEngine.beatDuration) < 0) := by
  norm_num [VISUAL_LEAD_TIME, TimingEngine.silenceOffset, TimingEngine.countInBeats,
    TimingEngine.beatDuration, TimingEngine.bpm, bluesTrackConfig, getBeatDuration]

/-- 272 seconds into the progression (with visual lead) is elapsed beat 544,
the first beat of measure 5 of the twelfth loop. -/
theorem blues_elapsed_beats_at_274181 : (⌊((274181 / 1000 : ℚ) - 0 + VISUAL_LEAD_TIME
    - (TimingEngine.silenceOffset + TimingEngine.countInBeats * TimingEngine.beatDuration))
      / TimingEngine.beatDuration⌋).toNat = 544 := by
  norm_num [VISUAL_LEAD_TIME, TimingEngine.silenceOffset, TimingEngine.countInBeats,
    TimingEngine.beatDuration, TimingEngine.bpm, bluesTrackConfig, getBeatDuration]
  decide

/-- Claim C6's witness: at elapsed beat 544 (loop count 11 = `maxLoops`) the
override clauses hold at a concrete playing position. -/
theorem maxLoops_chord_override_witness :
    (TimingEngine.maxLoops < getLoopsCompleted 544 →
      (TimingEngine.getCurrentPosition ⟨some 0, true, none⟩ (274181 / 1000)).currentChord
        = some "C7") ∧
    (getLoopsCompleted 544 ≤ TimingEngine.maxLoops →
      (TimingEngine.getCurrentPosition ⟨some 0, true, none⟩ (274181 / 1000)).currentChord
        = some ((getChordInfo 544).currentChord)) :=
  maxLoops_chord_override 0 (274181 / 1000) none 544 blues_playing_cond_at_274181
    blues_elapsed_beats_at_274181

/-- Claim C6's counterexample: with `loopsCompleted = 11 = maxLoops` — the
configured maximum loop count completed, so the claim's `≥ maxLoops`
condition holds — the displayed chord is still the Progression Model's F7,
not the forced first chord C7: the code forces C7 only when
`loopsCompleted > maxLoops`. -/
theorem maxLoops_boundary_counterexample :
    (TimingEngine.getCurrentPosition ⟨some 0, true, none⟩ (274181 / 1000)).loopsCompleted
      = TimingEngine.maxLoops ∧
    (TimingEngine.getCurrentPosition ⟨some 0, true, none⟩ (274181 / 1000)).currentChord
      = some "F7" ∧
    ("F7" : String) ≠ "C7" ∧
    TWELVE_BAR_BLUES.getD 0 "" = "C7" := by
  rw [getCurrentPosition_playing_eq 0 (274181 / 1000) none 544 blues_playing_cond_at_274181
    blues_elapsed_beats_at_274181]
  exact ⟨by decide, by decide, by decide, rfl⟩

/-! ## Map-model lemmas -/

theorem mapGet_mapSet_self {α β : Type} [DecidableEq α] (l : List (α × β)) (k : α) (v : β) :
    mapGet (mapSet l k v) k = some v := by
  induction l with
  | nil => simp [mapGet, mapSet]
  | cons p rest ih =>
    obtain ⟨k', v'⟩ := p
    by_cases h : k' = k
    · subst h; simp [mapGet, mapSet]
    · simp [mapGet, mapSet, h, ih]

theorem mem_keys_mapSet {α β : Type} [DecidableEq α] (l : List (α × β)) (k : α) (v : β)
    (a : α) (ha : a ∈ (mapSet l k v).map Prod.fst) :
    a ∈ l.map Prod.fst ∨ a = k := by
  induction l with
  | nil =>
    rw [show mapSet ([] : List (α × β)) k v = [(k, v)] from rfl, List.map_cons,
      List.map_nil] at ha
    exact Or.inr (List.mem_singleton.mp ha)
  | cons p rest ih =>
    obtain ⟨k', v'⟩ := p
    by_cases h : k' = k
    · subst h
      rw [mapSet, if_pos rfl, List.map_cons] at ha
      rcases List.mem_cons.mp ha with h1 | h1
      · exact Or.inr h1
      · refine Or.inl ?_
        rw [List.map_cons]
        exact List.mem_cons_of_mem _ h1
    · rw [mapSet, if_neg h, List.map_cons] at ha
      rcases List.mem_cons.mp ha with h1 | h1
      · refine Or.inl ?_
        rw [List.map_cons]
        exact h1 ▸ List.mem_cons_self _ _
      · rcases ih h1 with h2 | h2
        · refine Or.inl ?_
          rw [List.map_cons]
          exact List.mem_cons_of_mem _ h2
        · exact Or.inr h2

theorem keysNodup_mapSet {α β : Type} [DecidableEq α] (l : List (α × β)) (k : α) (v : β)
    (h : KeysNodup l) : KeysNodup (mapSet l k v) := by
  induction l with
  | nil => simp [KeysNodup, mapSet]
  | cons p rest ih =>
    obtain ⟨k', v'⟩ := p
    rw [KeysNodup, List.map_cons, List.nodup_cons] at h
    obtain ⟨hnot, hrest⟩ := h
    by_cases hk : k' = k
    · subst hk
      rw [KeysNodup, mapSet, if_pos rfl, List.map_cons, List.nodup_cons]
      exact ⟨hnot, hrest⟩
    · rw [KeysNodup, mapSet, if_neg hk, List.map_cons, List.nodup_cons]
      refine ⟨fun hmem => ?_, ih hrest⟩
      rcases mem_keys_mapSet rest k v k' hmem with h1 | h1
      · exact hnot h1
      · exact hk h1

theorem keys_mapDelete_sublist {α β : Type} [DecidableEq α] (l : List (α × β)) (k : α) :
    ((mapDelete l k).map Prod.fst).Sublist (l.map Prod.fst) := by
  induction l with
  | nil => simp [mapDelete]
  | cons p rest ih =>
    obtain ⟨k', v'⟩ := p
    by_cases h : k' = k
    · rw [mapDelete, if_pos h, List.map_cons]
      exact (List.Sublist.refl _).cons k'
    · rw [mapDelete, if_neg h, List.map_cons, List.map_cons]
      exact ih.cons₂ k'

theorem keysNodup_mapDelete {α β : Type} [DecidableEq α] (l : List (α × β)) (k : α)
    (h : KeysNodup l) : KeysNodup (mapDelete l k) :=
  (keys_mapDelete_sublist l k).nodup h

theorem mapGet_eq_none_of_not_mem {α β : Type} [DecidableEq α] (l : List (α × β)) (k : α)
    (h : k ∉ l.map Prod.fst) : mapGet l k = none := by
  induction l with
  | nil => rfl
  | cons p rest ih =>
    obtain ⟨k', v'⟩ := p
    simp only [List.map_cons, List.mem_cons] at h
    push_neg at h
    rw [mapGet, if_neg (fun he => h.1 he.symm)]
    exact ih h.2

theorem mapGet_mapDelete_self {α β : Type} [DecidableEq α] (l : List (α × β)) (k : α)
    (h : KeysNodup l) : mapGet (mapDelete l k) k = none := by
  induction l with
  | nil => rfl
  | cons p rest ih =>
    obtain ⟨k', v'⟩ := p
    rw [KeysNodup, List.map_cons, List.nodup_cons] at h
    obtain ⟨hnot, hrest⟩ := h
    by_cases hk : k' = k
    · subst hk
      rw [mapDelete, if_pos rfl]
      exact mapGet_eq_none_of_not_mem rest k' hnot
    · rw [mapDelete, if_neg hk, mapGet, if_neg hk]
      exact ih hrest

theorem mapSet_eq_append {α β : Type} [DecidableEq α] (l : List (α × β)) (k : α) (v : β)
    (h : mapGet l k = none) : mapSet l k v = l ++ [(k, v)] := by
  induction l with
  | nil => rfl
  | cons p rest ih =>
    obtain ⟨k', v'⟩ := p
    by_cases hk : k' = k
    · rw [mapGet, if_pos hk] at h; exact absurd h (by simp)
    · rw [mapGet, if_neg hk] at h
      rw [mapSet, if_neg hk, ih h, List.cons_append]

theorem filter_key_eq_nil {α β : Type} [DecidableEq α] (l : List (α × β)) (k : α)
    (h : mapGet l k = none) : l.filter (fun p => p.1 = k) = [] := by
  induction l with
  | nil => rfl
  | cons p rest ih =>
    obtain ⟨k', v'⟩ := p
    by_cases hk : k' = k
    · rw [mapGet, if_pos hk] at h; exact absurd h (by simp)
    · rw [mapGet, if_neg hk] at h
      simp only [List.filter_cons, decide_eq_true_eq, hk, if_false]
      exact ih h

/-! ## Voice engine lemmas and claims C5, C9, C10 -/

theorem stopNote_of_get_none (now : ℚ) (inputID : String) (m : Nat) (s : AudioState)
    (h : mapGet s.activeSources inputID = none) :
    AudioEngine.stopNote now inputID m s = s := by
  unfold AudioEngine.stopNote
  rw [h]

theorem stopNote_of_get_some (now : ℚ) (inputID : String) (m : Nat) (s : AudioState)
    (a : ActiveVoice) (h : mapGet s.activeSources inputID = some a) :
    AudioEngine.stopNote now inputID m s =
      { s with
          activeSources := mapDelete s.activeSources inputID
          fades := s.fades ++ [fadeStopEvent now a] } := by
  unfold AudioEngine.stopNote
  rw [h]

theorem stopNote_contextRunning (now : ℚ) (inputID : String) (m : Nat) (s : AudioState) :
    (AudioEngine.stopNote now inputID m s).contextRunning = s.contextRunning := by
  unfold AudioEngine.stopNote
  cases hq : mapGet s.activeSources inputID <;> rfl

theorem stopNote_samples (now : ℚ) (inputID : String) (m : Nat) (s : AudioState) :
    (AudioEngine.stopNote now inputID m s).samples = s.samples := by
  unfold AudioEngine.stopNote
  cases hq : mapGet s.activeSources inputID <;> rfl

theorem stopNote_keysNodup (now : ℚ) (inputID : String) (m : Nat) (s : AudioState)
    (h : KeysNodup s.activeSources) :
    KeysNodup ((AudioEngine.stopNote now inputID m s).activeSources) := by
  unfold AudioEngine.stopNote
  cases hq : mapGet s.activeSources inputID with
  | none => exact h
  | some a => exact keysNodup_mapDelete s.activeSources inputID h

theorem playNote_spec (now : ℚ) (inputID : String) (m : Nat) (s : AudioState)
    (hrun : s.contextRunning = true) (hm : m ∈ s.samples) :
    AudioEngine.playNote now inputID m s =
      (let s1 := if (mapGet s.activeSources inputID).isSome
          then AudioEngine.stopNote now inputID m s else s
       ({ s1 with
            activeSources := mapSet s1.activeSources inputID
              ⟨m, s1.nextNodeId, s1.nextNodeId + 1⟩
            nextNodeId := s1.nextNodeId + 2 },
         some ⟨m, s1.nextNodeId, s1.nextNodeId + 1⟩)) := by
  unfold AudioEngine.playNote
  rw [if_neg (by simp [hrun]), if_neg (not_not_intro hm)]

theorem playNote_not_ready (now : ℚ) (inputID : String) (m : Nat) (s : AudioState)
    (h : s.contextRunning = false ∨ m ∉ s.samples) :
    AudioEngine.playNote now inputID m s = (s, none) := by
  unfold AudioEngine.playNote
  rcases h with h | h
  · rw [if_pos h]
  · by_cases hc : s.contextRunning = false
    · rw [if_pos hc]
    · rw [if_neg hc, if_pos h]

theorem playNote_contextRunning (now : ℚ) (inputID : String) (m : Nat) (s : AudioState) :
    (AudioEngine.playNote now inputID m s).1.contextRunning = s.contextRunning := by
  by_cases hc : s.contextRunning = false
  · rw [playNote_not_ready now inputID m s (Or.inl hc)]
  · by_cases hm : m ∈ s.samples
    · rw [playNote_spec now inputID m s (by revert hc; cases s.contextRunning <;> simp) hm]
      by_cases hp : (mapGet s.activeSources inputID).isSome
      · simp only [if_pos hp]
        exact stopNote_contextRunning now inputID m s
      · simp only [if_neg hp]
    · rw [playNote_not_ready now inputID m s (Or.inr hm)]

theorem playNote_samples (now : ℚ) (inputID : String) (m : Nat) (s : AudioState) :
    (AudioEngine.playNote now inputID m s).1.samples = s.samples := by
  by_cases hc : s.contextRunning = false
  · rw [playNote_not_ready now inputID m s (Or.inl hc)]
  · by_cases hm : m ∈ s.samples
    · rw [playNote_spec now inputID m s (by revert hc; cases s.contextRunning <;> simp) hm]
      by_cases hp : (mapGet s.activeSources inputID).isSome
      · simp only [if_pos hp]
        exact stopNote_samples now inputID m s
      · simp only [if_neg hp]
    · rw [playNote_not_ready now inputID m s (Or.inr hm)]

theorem playNote_keysNodup (now : ℚ) (inputID : String) (m : Nat) (s : AudioState)
    (h : KeysNodup s.activeSources) :
    KeysNodup ((AudioEngine.playNote now inputID m s).1.activeSources) := by
  by_cases hc : s.contextRunning = false
  · rw [playNote_not_ready now inputID m s (Or.inl hc)]; exact h
  · by_cases hm : m ∈ s.samples
    · rw [playNote_spec now inputID m s (by revert hc; cases s.contextRunning <;> simp) hm]
      by_cases hp : (mapGet s.activeSources inputID).isSome
      · simp only [if_pos hp]
        exact keysNodup_mapSet _ _ _ (stopNote_keysNodup now inputID m s h)
      · simp only [if_neg hp]
        exact keysNodup_mapSet _ _ _ h
    · rw [playNote_not_ready now inputID m s (Or.inr hm)]; exact h

/-- The loop of `stopAllSamples` empties exactly the entries it iterates and
schedules one fade per entry, in order. -/
theorem stopAllGo_spec (now : ℚ) :
    ∀ (entries : List (String × ActiveVoice)) (s : AudioState),
      s.activeSources = entries →
      (AudioEngine.stopAllGo now entries s).activeSources = [] ∧
      (AudioEngine.stopAllGo now entries s).fades
        = s.fades ++ entries.map (fun p => fadeStopEvent now p.2) := by
  intro entries
  induction entries with
  | nil =>
    intro s hs
    exact ⟨hs, by simp [AudioEngine.stopAllGo]⟩
  | cons p rest ih =>
    obtain ⟨inputID, v⟩ := p
    intro s hs
    have hget : mapGet s.activeSources inputID = some v := by
      rw [hs]; simp [mapGet]
    have hdel : mapDelete s.activeSources inputID = rest := by
      rw [hs]; simp [mapDelete]
    have hstop := stopNote_of_get_some now inputID v.midiNumber s v hget
    simp only [AudioEngine.stopAllGo]
    rw [hstop, hdel]
    obtain ⟨h1, h2⟩ :=
      ih { s with activeSources := rest, fades := s.fades ++ [fadeStopEvent now v] } rfl
    refine ⟨h1, ?_⟩
    rw [h2]
    simp [List.append_assoc]

theorem stopAllSamples_keysNodup (now : ℚ) (s : AudioState) :
    KeysNodup ((AudioEngine.stopAllSamples now s).activeSources) := by
  unfold AudioEngine.stopAllSamples
  rw [(stopAllGo_spec now s.activeSources s rfl).1]
  exact List.nodup_nil

theorem playNote_registers (now : ℚ) (inputID : String) (m : Nat) (s : AudioState)
    (hrun : s.contextRunning = true) (hm : m ∈ s.samples) :
    ∃ w : ActiveVoice, w.midiNumber = m ∧
      mapGet ((AudioEngine.playNote now inputID m s).1.activeSources) inputID = some w := by
  simp only [playNote_spec now inputID m s hrun hm]
  exact ⟨_, rfl, mapGet_mapSet_self _ _ _⟩

/-- Re-triggering an identity that is already registered: the old voice is
force-stopped (its fade is scheduled) and the registry ends with exactly one
entry under the identity, carrying the new pitch. -/
theorem playNote_retrigger (now2 : ℚ) (inputID : String) (p2 : Nat) (S1 : AudioState)
    (w1 : ActiveVoice) (f2 : KeysNodup S1.activeSources) (f3 : S1.contextRunning = true)
    (f4 : p2 ∈ S1.samples) (hw1 : mapGet S1.activeSources inputID = some w1) :
    ((AudioEngine.playNote now2 inputID p2 S1).1.activeSources.filter
        (fun p => p.1 = inputID))
      = [(inputID, ⟨p2, S1.nextNodeId, S1.nextNodeId + 1⟩)] ∧
    (AudioEngine.playNote now2 inputID p2 S1).1.fades
      = S1.fades ++ [fadeStopEvent now2 w1] := by
  have hstop2 := stopNote_of_get_some now2 inputID p2 S1 w1 hw1
  have hspec2 := playNote_spec now2 inputID p2 S1 f3 f4
  rw [hw1] at hspec2
  simp only [Option.isSome_some, if_true] at hspec2
  rw [hstop2] at hspec2
  have hact2 : (AudioEngine.playNote now2 inputID p2 S1).1.activeSources
      = mapSet (mapDelete S1.activeSources inputID) inputID
          ⟨p2, S1.nextNodeId, S1.nextNodeId + 1⟩ := by
    rw [hspec2]
  have hfad2 : (AudioEngine.playNote now2 inputID p2 S1).1.fades
      = S1.fades ++ [fadeStopEvent now2 w1] := by
    rw [hspec2]
  have hnone : mapGet (mapDelete S1.activeSources inputID) inputID = none :=
    mapGet_mapDelete_self _ _ f2
  have happ := mapSet_eq_append (mapDelete S1.activeSources inputID) inputID
    (⟨p2, S1.nextNodeId, S1.nextNodeId + 1⟩ : ActiveVoice) hnone
  refine ⟨?_, hfad2⟩
  rw [hact2, happ, List.filter_append, filter_key_eq_nil _ _ hnone]
  simp

/-- Claim C5: every Voice Engine operation preserves the at-most-one-voice-
per-identity invariant of the `activeSources` registry, and after
`playNote(id, p1)` then `playNote(id, p2)` on a ready engine (same identity,
any pitches), exactly one voice is registered under `id`, it carries pitch
`p2`, and the earlier voice (carrying `p1`) was force-stopped first — its
fade-out is the one scheduled by the second call. -/
theorem voice_identity_uniqueness :
    (∀ (s : AudioState) (now : ℚ) (inputID : String) (midiNumber : Nat),
        KeysNodup s.activeSources →
        KeysNodup ((AudioEngine.playNote now inputID midiNumber s).1.activeSources) ∧
        KeysNodup ((AudioEngine.stopNote now inputID midiNumber s).activeSources) ∧
        KeysNodup ((AudioEngine.stopAllSamples now s).activeSources)) ∧
    (∀ (s : AudioState) (now1 now2 : ℚ) (inputID : String) (p1 p2 : Nat),
        KeysNodup s.activeSources → s.contextRunning = true →
        p1 ∈ s.samples → p2 ∈ s.samples →
        ∃ v1 v2 : ActiveVoice, v1.midiNumber = p1 ∧ v2.midiNumber = p2 ∧
          mapGet ((AudioEngine.playNote now1 inputID p1 s).1.activeSources) inputID
            = some v1 ∧
          ((AudioEngine.playNote now2 inputID p2
              (AudioEngine.playNote now1 inputID p1 s).1).1.activeSources.filter
            (fun p => p.1 = inputID)) = [(inputID, v2)] ∧
          (AudioEngine.playNote now2 inputID p2
              (AudioEngine.playNote now1 inputID p1 s).1).1.fades
            = (AudioEngine.playNote now1 inputID p1 s).1.fades
              ++ [fadeStopEvent now2 v1]) := by
  constructor
  · intro s now inputID midiNumber hinv
    exact ⟨playNote_keysNodup now inputID midiNumber s hinv,
      stopNote_keysNodup now inputID midiNumber s hinv,
      stopAllSamples_keysNodup now s⟩
  · intro s now1 now2 inputID p1 p2 hinv hrun h1 h2
    obtain ⟨w1, hw1m, hw1⟩ := playNote_registers now1 inputID p1 s hrun h1
    have f2 : KeysNodup (AudioEngine.playNote now1 inputID p1 s).1.activeSources :=
      playNote_keysNodup now1 inputID p1 s hinv
    have f3 : (AudioEngine.playNote now1 inputID p1 s).1.contextRunning = true := by
      rw [playNote_contextRunning]; exact hrun
    have f4 : p2 ∈ (AudioEngine.playNote now1 inputID p1 s).1.samples := by
      rw [playNote_samples]; exact h2
    obtain ⟨hfilter, hfades⟩ :=
      playNote_retrigger now2 inputID p2 (AudioEngine.playNote now1 inputID p1 s).1 w1
        f2 f3 f4 hw1
    exact ⟨w1, _, hw1m, rfl, hw1, hfilter, hfades⟩

/-- Claim C5's witness: a ready engine with samples 60 and 62 loaded and an
empty registry; `playNote("KeyZ", 60)` then `playNote("KeyZ", 62)`. -/
theorem voice_identity_uniqueness_witness :
    (KeysNodup ((AudioEngine.playNote 2 "KeyZ" 60
        ⟨true, [60, 62], [], 0, 8 / 10, 6 / 10, []⟩).1.activeSources) ∧
      KeysNodup ((AudioEngine.stopNote 2 "KeyZ" 60
        ⟨true, [60, 62], [], 0, 8 / 10, 6 / 10, []⟩).activeSources) ∧
      KeysNodup ((AudioEngine.stopAllSamples 2
        ⟨true, [60, 62], [], 0, 8 / 10, 6 / 10, []⟩).activeSources)) ∧
    (∃ v1 v2 : ActiveVoice, v1.midiNumber = 60 ∧ v2.midiNumber = 62 ∧
      mapGet ((AudioEngine.playNote 2 "KeyZ" 60
          ⟨true, [60, 62], [], 0, 8 / 10, 6 / 10, []⟩).1.activeSources) "KeyZ" = some v1 ∧
      ((AudioEngine.playNote 3 "KeyZ" 62 (AudioEngine.playNote 2 "KeyZ" 60
          ⟨true, [60, 62], [], 0, 8 / 10, 6 / 10, []⟩).1).1.activeSources.filter
        (fun p => p.1 = "KeyZ")) = [("KeyZ", v2)] ∧
      (AudioEngine.playNote 3 "KeyZ" 62 (AudioEngine.playNote 2 "KeyZ" 60
          ⟨true, [60, 62], [], 0, 8 / 10, 6 / 10, []⟩).1).1.fades
        = (AudioEngine.playNote 2 "KeyZ" 60
            ⟨true, [60, 62], [], 0, 8 / 10, 6 / 10, []⟩).1.fades
          ++ [fadeStopEvent 3 v1]) :=
  ⟨voice_identity_uniqueness.1 ⟨true, [60, 62], [], 0, 8 / 10, 6 / 10, []⟩ 2 "KeyZ" 60
      List.nodup_nil,
    voice_identity_uniqueness.2 ⟨true, [60, 62], [], 0, 8 / 10, 6 / 10, []⟩ 2 3 "KeyZ" 60 62
      List.nodup_nil rfl (by decide) (by decide)⟩

/-- Claim C9: `stopNote` on an identity with no registered voice is a strict
no-op — the whole engine state (registry, node supply, both gain buses,
scheduled fades) is returned unchanged; the source only emits a console
warning, which carries no state. -/
theorem stopNote_unregistered_noop (s : AudioState) (now : ℚ) (inputID : String)
    (midiNumber : Nat) (h : mapGet s.activeSources inputID = none) :
    AudioEngine.stopNote now inputID midiNumber s = s :=
  stopNote_of_get_none now inputID midiNumber s h

/-- Claim C9's witness: stopping "KeyQ" on an engine whose only voice is
registered under "KeyZ" changes nothing. -/
theorem stopNote_unregistered_noop_witness :
    AudioEngine.stopNote 7 "KeyQ" 67
        ⟨true, [60, 62], [("KeyZ", ⟨60, 0, 1⟩)], 2, 8 / 10, 6 / 10, []⟩
      = ⟨true, [60, 62], [("KeyZ", ⟨60, 0, 1⟩)], 2, 8 / 10, 6 / 10, []⟩ :=
  stopNote_unregistered_noop ⟨true, [60, 62], [("KeyZ", ⟨60, 0, 1⟩)], 2, 8 / 10, 6 / 10, []⟩
    7 "KeyQ" 67 rfl

/-- Claim C10: after `stopAllSamples()` the active-voice registry is empty,
and every previously registered voice went through the fade-out stop path —
one scheduled fade per entry, in registry order. -/
theorem stopAllSamples_empties_registry (s : AudioState) (now : ℚ) :
    (AudioEngine.stopAllSamples now s).activeSources = [] ∧
    (AudioEngine.stopAllSamples now s).fades
      = s.fades ++ s.activeSources.map (fun p => fadeStopEvent now p.2) := by
  unfold AudioEngine.stopAllSamples
  exact stopAllGo_spec now s.activeSources s rfl

/-! ## Sample loader: claim C8 -/

/-- Claim C8: when a `load(key)` call succeeds, an immediately following
`load(key)` returns the reference-identical buffer, changes nothing in the
loader state (in particular it issues no fetch), and across the two calls at
most one fetch of the key is issued. -/
theorem sample_cache_memoization (fetchOk : String → Bool) (url : String) (s : LoaderState)
    (h : ((SampleLoader.loadSample fetchOk url s).2).toOption.isSome = true) :
    (SampleLoader.loadSample fetchOk url (SampleLoader.loadSample fetchOk url s).1).2
      = (SampleLoader.loadSample fetchOk url s).2 ∧
    (SampleLoader.loadSample fetchOk url (SampleLoader.loadSample fetchOk url s).1).1
      = (SampleLoader.loadSample fetchOk url s).1 ∧
    ((SampleLoader.loadSample fetchOk url
        (SampleLoader.loadSample fetchOk url s).1).1).fetchLog.count url
      ≤ s.fetchLog.count url + 1 := by
  cases hc : mapGet s.cache url with
  | some buffer =>
    have h1 : SampleLoader.loadSample fetchOk url s = (s, .ok buffer) := by
      unfold SampleLoader.loadSample
      rw [hc]
    rw [h1]
    rw [h1]
    exact ⟨rfl, rfl, Nat.le_succ_of_le (Nat.le_refl _)⟩
  | none =>
    by_cases hf : fetchOk url
    · have h1 : SampleLoader.loadSample fetchOk url s
          = ({ cache := mapSet s.cache url s.nextBuffer
               nextBuffer := s.nextBuffer + 1
               fetchLog := s.fetchLog ++ [url] }, .ok s.nextBuffer) := by
        unfold SampleLoader.loadSample
        rw [hc]
        simp only [if_pos hf]
      have h2 : SampleLoader.loadSample fetchOk url
          ({ cache := mapSet s.cache url s.nextBuffer
             nextBuffer := s.nextBuffer + 1
             fetchLog := s.fetchLog ++ [url] } : LoaderState)
          = ({ cache := mapSet s.cache url s.nextBuffer
               nextBuffer := s.nextBuffer + 1
               fetchLog := s.fetchLog ++ [url] }, .ok s.nextBuffer) := by
        unfold SampleLoader.loadSample
        rw [show mapGet (mapSet s.cache url s.nextBuffer) url = some s.nextBuffer from
          mapGet_mapSet_self _ _ _]
      rw [h1, h2]
      refine ⟨rfl, rfl, ?_⟩
      simp [List.count_append]
    · exfalso
      have h1 : SampleLoader.loadSample fetchOk url s
          = ({ s with fetchLog := s.fetchLog ++ [url] },
              .error ("Failed to load " ++ url)) := by
        unfold SampleLoader.loadSample
        rw [hc]
        simp only [if_neg hf]
      rw [h1] at h
      exact Bool.noConfusion h

/-- Claim C8's witness: a fresh loader, an always-succeeding fetch, and two
sequential loads of a sample URL. -/
theorem sample_cache_memoization_witness :
    (SampleLoader.loadSample (fun _ => true) "trumpet/60.mp3"
        (SampleLoader.loadSample (fun _ => true) "trumpet/60.mp3" ⟨[], 0, []⟩).1).2
      = (SampleLoader.loadSample (fun _ => true) "trumpet/60.mp3" ⟨[], 0, []⟩).2 ∧
    (SampleLoader.loadSample (fun _ => true) "trumpet/60.mp3"
        (SampleLoader.loadSample (fun _ => true) "trumpet/60.mp3" ⟨[], 0, []⟩).1).1
      = (SampleLoader.loadSample (fun _ => true) "trumpet/60.mp3" ⟨[], 0, []⟩).1 ∧
    ((SampleLoader.loadSample (fun _ => true) "trumpet/60.mp3"
        (SampleLoader.loadSample (fun _ => true) "trumpet/60.mp3" ⟨[], 0, []⟩).1).1).fetchLog.count
          "trumpet/60.mp3"
      ≤ (⟨[], 0, []⟩ : LoaderState).fetchLog.count "trumpet/60.mp3" + 1 :=
  sample_cache_memoization (fun _ => true) "trumpet/60.mp3" ⟨[], 0, []⟩ rfl
